import Mathlib

/-!
Verification of the text-decomposition, relevance-scoring and
answer-normalization pipeline of the Multi-Constraint Agentic Search
Framework repository.

The Python sources under `src/` are shallowly embedded below:

* `src/clean.py`   → `clean_answer_aggressive`
* `src/extract.py` → `extract_question_with_llm`, `extract_core_entities`,
                     `extract_core_querys`, `extract_relevant_sentences`
* `src/mian.py`    → `decomposeStage`, `answerPhase`, `runLoop`

Python strings are modelled as `String` / `List Char` (Python `len` and
slicing count code points, as does `List Char`).  The opaque LLM backend
(`generator.generate`) is modelled by an oracle: a list of responses, one
per call, where a response is `Except Unit (List String)` (`.error` = the
call raises, `.ok l` = it returns the list `l`).  Python regexes are
embedded on their ASCII fragment: `\w` is modelled as ASCII alphanumeric
or `_`, `\d` as ASCII digits, `[A-Za-z]` as ASCII letters, and string
lowering as ASCII lowering, exactly as the regex character classes used by
the source are specified.
-/

namespace MCASF

/-- Python `str.strip()` whitespace: ASCII whitespace including vertical
tab and form feed (the fragment of Python's definition used here). -/
def isPySpace (c : Char) : Bool :=
  c == ' ' || c == '\t' || c == '\n' || c == '\r' || c == '\x0b' || c == '\x0c'

/-- Drop characters satisfying `p` from the end of a list. -/
def rdropWhileP (p : Char → Bool) (l : List Char) : List Char :=
  (l.reverse.dropWhile p).reverse

/-- Python `s.strip()`: drop whitespace from both ends. -/
def pyStrip (l : List Char) : List Char :=
  rdropWhileP isPySpace (l.dropWhile isPySpace)

/-- Python `s.strip(chars)` / `s.rstrip(chars)` helper: drop characters
belonging to `cs` from both ends. -/
def stripCharSet (cs : List Char) (l : List Char) : List Char :=
  rdropWhileP (fun c => cs.contains c) (l.dropWhile (fun c => cs.contains c))

/-- Python `s.rstrip(chars)`: drop characters belonging to `cs` from the
right end only. -/
def rstripCharSet (cs : List Char) (l : List Char) : List Char :=
  rdropWhileP (fun c => cs.contains c) l

/-- Index of the first `:` in the list (`answer.index(':')`), if any. -/
def idxOfColon : List Char → Option Nat
  | [] => none
  | c :: cs => if c == ':' then some 0 else (idxOfColon cs).map (· + 1)

/-- The quote characters stripped by stage 3 of `clean_answer_aggressive`
(`answer.strip('"\'')`). -/
def quoteChars : List Char := ['"', '\'']

/-- The first-clause delimiters of stage 4 of `clean_answer_aggressive`,
in the fixed scan order of the source. -/
def clauseDelims : List Char := [',', '.', '\n', ';']

/-- The trailing punctuation stripped by stage 5 of
`clean_answer_aggressive` (`answer.rstrip('.,;!?')`). -/
def punctChars : List Char := ['.', ',', ';', '!', '?']

/-- The ordered `bad_starts` list of `src/clean.py`, verbatim. -/
def badStarts : List String :=
  ["According to the provided information", "According to the reference",
   "According to", "Based on the information",
   "Based on the reference", "Based on", "From the information",
   "From the reference",
   "The provided information", "The reference shows",
   "The information shows", "The search results show",
   "Here is", "Here are", "This is", "This", "That", "The",
   "The answer is", "Answer is", "Answer:", "Answer:",
   "It is:", "It is", "It:", "Is:", "Is",
   "Should be", "Could be", "Might be"]

/-- Stage 1 of `src/clean.py`: scan `bad_starts` in order; on the first
match remove that leading phrase, strip, and stop scanning. -/
def stripBoiler : List String → List Char → List Char
  | [], a => a
  | b :: bs, a =>
    if b.toList.isPrefixOf a then pyStrip (a.drop b.toList.length)
    else stripBoiler bs a

/-- Stage 2 of `src/clean.py`: if a `:` occurs within the first 15
characters, keep everything after the first such colon, stripped. -/
def colonStage (a : List Char) : List Char :=
  match idxOfColon a with
  | some i => if i < 15 then pyStrip (a.drop (i + 1)) else a
  | none => a

/-- Stage 4 of `src/clean.py`: try delimiters in the fixed order; for a
delimiter present in the string take the text before its first
occurrence, stripped; adopt it and stop only if its length exceeds 2. -/
def firstClauseGo : List Char → List Char → List Char
  | [], a => a
  | d :: ds, a =>
    if a.contains d then
      let first := pyStrip (a.takeWhile (fun c => !(c == d)))
      if 2 < first.length then first else firstClauseGo ds a
    else firstClauseGo ds a

/-- Stage 6 of `src/clean.py`: truncate to at most 30 characters. -/
def capStage (a : List Char) : List Char :=
  if 30 < a.length then a.take 30 else a

/-- Stages 1–6 of `src/clean.py` composed, plus the final strip. -/
def cleanStages (l : List Char) : List Char :=
  pyStrip (capStage (rstripCharSet punctChars
    (firstClauseGo clauseDelims
      (stripCharSet quoteChars (colonStage (stripBoiler badStarts l))))))

/-- Embedding of `clean_answer_aggressive` from `src/clean.py`: the empty
guard, stages 1–6 with the final strip (`cleanStages`), and the
`return answer if answer else original[:20]` fallback. -/
def clean_answer_aggressive (answer : String) : String :=
  if answer.toList.isEmpty then "" else
  (if (cleanStages answer.toList).isEmpty then answer.toList.take 20
   else cleanStages answer.toList).asString

/-! ## Generator oracle

`generator.generate([prompt])` is modelled as consuming the next entry of
a response oracle (a list): `.error ()` means the call raises, `.ok l`
means it returns the Python list `l`. -/

/-- One response of the opaque LLM backend. -/
abbrev GenResp := Except Unit (List String)

/-- Consume the next oracle response; an exhausted oracle raises. -/
def genCall : List GenResp → GenResp × List GenResp
  | [] => (Except.error (), [])
  | r :: rs => (r, rs)

/-! ## Regex embeddings (ASCII fragment)

`re.split(r'[.?!]', t)` splits at every single delimiter character
(keeping empty segments); `re.split(r'X+', t)` splits at maximal runs of
delimiter characters; `re.findall(r'\d+', t)` lists maximal digit runs;
`re.findall(r'\b[A-Za-z]{m,n}\b', t)` lists the maximal word-character
runs that consist purely of ASCII letters and whose length lies in
`[m, n]` (inside such a run there is no word boundary, so no shorter
match can start or end there). -/

/-- Prepend a character to the first segment of a split result. -/
def consHead (c : Char) : List (List Char) → List (List Char)
  | [] => [[c]]
  | s :: ss => (c :: s) :: ss

/-- `re.split` on single delimiter characters (class without `+`):
every delimiter char produces a boundary, empty segments are kept. -/
def splitEvery (p : Char → Bool) : List Char → List (List Char)
  | [] => [[]]
  | c :: cs => if p c then [] :: splitEvery p cs else consHead c (splitEvery p cs)

/-- Worker for `re.split` on runs (`[...]+`): the flag records whether
the previous character belonged to a delimiter run. -/
def splitRunsF (p : Char → Bool) : Bool → List Char → List (List Char)
  | _, [] => [[]]
  | false, c :: cs =>
    if p c then [] :: splitRunsF p true cs else consHead c (splitRunsF p false cs)
  | true, c :: cs =>
    if p c then splitRunsF p true cs else consHead c (splitRunsF p false cs)

/-- `re.split(r'[...]+', t)`: split at maximal runs of delimiter chars. -/
def splitRuns (p : Char → Bool) (l : List Char) : List (List Char) :=
  splitRunsF p false l

/-- Worker for `re.findall` of maximal runs: the flag records whether a
run is currently open (its remaining characters head the result). -/
def runsOfF (p : Char → Bool) : Bool → List Char → List (List Char)
  | false, [] => []
  | true, [] => [[]]
  | false, c :: cs => if p c then consHead c (runsOfF p true cs) else runsOfF p false cs
  | true, c :: cs => if p c then consHead c (runsOfF p true cs) else [] :: runsOfF p false cs

/-- All maximal runs of characters satisfying `p`, in order. -/
def runsOf (p : Char → Bool) (l : List Char) : List (List Char) :=
  runsOfF p false l

/-- ASCII fragment of the Python regex `\w` word character class. -/
def isWordChar (c : Char) : Bool := c.isAlphanum || c == '_'

/-- `re.findall(r'\b[A-Za-z]{2,15}\b', t)` (used by the keyword
fallback of `extract_core_entities`). -/
def letterTokens2to15 (l : List Char) : List (List Char) :=
  (runsOf isWordChar l).filter
    (fun r => r.all Char.isAlpha && decide (2 ≤ r.length) && decide (r.length ≤ 15))

/-- `re.findall(r'\d+', t)` (used by the keyword fallback). -/
def digitTokens (l : List Char) : List (List Char) :=
  runsOf Char.isDigit l

/-- `re.findall(r'\b[A-Za-z]{2,}\b', t.lower())` (used by
`extract_relevant_sentences`); lowering is ASCII `str.lower`. -/
def lowerLetterTokens (l : List Char) : List (List Char) :=
  (runsOf isWordChar (l.map Char.toLower)).filter
    (fun r => r.all Char.isAlpha && decide (2 ≤ r.length))

/-! ## `src/extract.py` -/

/-- Sentence-final punctuation of the core-question fallback
(`re.split(r'[.?!]', text)`). -/
def isSentEnd (c : Char) : Bool := c == '.' || c == '?' || c == '!'

/-- Fallback of `extract_question_with_llm` (lines 38–41 of
`src/extract.py`): split the original text on `.`, `?`, `!`; return the
last non-empty stripped segment, or the text itself if none exists. -/
def coreFallback (text : String) : String :=
  let sentences := ((splitEvery isSentEnd text.toList).map pyStrip).filter
    (fun s => !s.isEmpty)
  match sentences.getLast? with
  | some s => s.asString
  | none => text

/-- The ordered label prefixes stripped from the core-question LLM
result. -/
def coreLabels : List String := ["Output:", "Answer:", "Question:", "Core question:"]

/-- Sequential label stripping (the Python loop has no `break`: each
label in turn is stripped if the current value starts with it). -/
def stripLabelsSeq : List String → List Char → List Char
  | [], a => a
  | p :: ps, a =>
    stripLabelsSeq ps
      (if p.toList.isPrefixOf a then pyStrip (a.drop p.toList.length) else a)

/-- Cleaning applied to the raw core-question generation result:
strip, strip labels, `rstrip('?.')`, strip. -/
def coreClean (r : String) : List Char :=
  pyStrip (rstripCharSet ['?', '.'] (stripLabelsSeq coreLabels (pyStrip r.toList)))

/-- Embedding of `extract_question_with_llm` from `src/extract.py`,
as a function of the text and the one oracle response its single
`generator.generate` call receives. -/
def extract_question_with_llm (text : String) (resp : GenResp) : String :=
  if text.length < 20 then text
  else
    match resp with
    | Except.error _ => coreFallback text
    | Except.ok [] => coreFallback text
    | Except.ok (r :: _) =>
      let c := coreClean r
      if c.length < 3 then coreFallback text else c.asString

/-- Delimiter class of `re.split(r'[,\s]+', s)`. -/
def isCommaWS (c : Char) : Bool := c == ',' || isPySpace c

/-- The ordered label prefixes stripped from the keyword LLM result. -/
def entityLabels : List String := ["Output:", "Keywords:", "Entities:"]

/-- Keyword fallback of `extract_core_entities` (lines 97–103 of
`src/extract.py`): up to 6 alphabetic tokens plus up to 3 numeric
tokens, capped at 10; when no token exists, the first 30 characters of
the text. -/
def fallbackKeywords (text : String) : List String :=
  let keywords := (letterTokens2to15 text.toList).take 6 ++ (digitTokens text.toList).take 3
  if keywords.isEmpty then [(text.toList.take 30).asString]
  else (keywords.take 10).map List.asString

/-- Embedding of `extract_core_entities` from `src/extract.py`. -/
def extract_core_entities (text : String) (resp : GenResp) : List String :=
  if text.length < 10 then [text]
  else
    match resp with
    | Except.ok (r :: _) =>
      let s := stripLabelsSeq entityLabels (pyStrip r.toList)
      let entities := (splitRuns isCommaWS s).filter
        (fun e => !(pyStrip e).isEmpty && decide (1 < e.length))
      ((entities.map pyStrip).take 10).map List.asString
    | _ => fallbackKeywords text

/-- Python `raw_output.replace('，', ',')`: full-width commas become
standard commas. -/
def replFW (l : List Char) : List Char :=
  l.map (fun c => if c == '，' then ',' else c)

/-- Embedding of `extract_core_querys` from `src/extract.py`: strip the
raw output, normalize full-width commas, split on commas, strip each
segment, drop empties; on failure (exception or empty result list, the
latter making `result[0]` raise) return `[text]`. -/
def extract_core_querys (text : String) (resp : GenResp) : List String :=
  if text.length < 10 then [text]
  else
    match resp with
    | Except.ok (r :: _) =>
      (((splitEvery (fun c => c == ',') (replFW (pyStrip r.toList))).map
        pyStrip).filter (fun x => !x.isEmpty)).map List.asString
    | _ => [text]

/-- Sentence-boundary class of `re.split(r'[。！？\n]+', doc)`. -/
def isHanDelim (c : Char) : Bool := c == '。' || c == '！' || c == '？' || c == '\n'

/-- Sentence collection of `extract_relevant_sentences`: split a document
on the Han-script boundary pattern, strip, keep fragments longer than
10 characters. -/
def docSentences (doc : String) : List (List Char) :=
  ((splitRuns isHanDelim doc.toList).map pyStrip).filter
    (fun s => decide (10 < s.length))

/-- Remove duplicates (set construction); only membership counts are
used, so the retention order is irrelevant. -/
def dedupCL (l : List (List Char)) : List (List Char) :=
  l.foldr (fun x acc => if acc.contains x then acc else x :: acc) []

/-- Size of the intersection of the two token sets
(`len(question_keywords & sent_words)`). -/
def interCount (qs ss : List (List Char)) : Nat :=
  (dedupCL ss).countP (fun t => qs.contains t)

/-- Stable descending insertion (`list.sort(key=..., reverse=True)` is
stable: a later element is placed after all earlier elements with a
score at least as large). -/
def insertDesc (x : Nat × List Char) : List (Nat × List Char) → List (Nat × List Char)
  | [] => [x]
  | y :: ys => if x.1 ≤ y.1 then y :: insertDesc x ys else x :: y :: ys

/-- Stable sort by score, descending. -/
def sortDesc (l : List (Nat × List Char)) : List (Nat × List Char) :=
  l.foldl (fun acc x => insertDesc x acc) []

/-- Python `'\n'.join` over character-list sentences. -/
def joinNL : List (List Char) → String
  | [] => ""
  | [s] => s.asString
  | s :: rest => s.asString ++ "\n" ++ joinNL rest

/-- Embedding of `extract_relevant_sentences` from `src/extract.py`. -/
def extract_relevant_sentences (documents : List String) (question : String)
    (maxSentences : Nat) : String :=
  if documents.isEmpty then "" else
  let allSentences := (documents.map docSentences).flatten
  if allSentences.isEmpty then
    match documents with
    | [] => ""
    | d :: _ => (d.toList.take 200).asString
  else
    let questionKeywords := dedupCL (lowerLetterTokens question.toList)
    let sentenceScores := (allSentences.take 50).map
      (fun s => (interCount questionKeywords (lowerLetterTokens s), s))
    let sorted := sortDesc sentenceScores
    let top := ((sorted.take maxSentences).filter
      (fun x => decide (0 < x.1))).map (fun x => x.2)
    if top.isEmpty then joinNL (allSentences.take 2) else joinNL top

/-! ## `src/mian.py` -/

/-- Python substring containment (`pat in s`). -/
def listContainsSub (pat : List Char) : List Char → Bool
  | [] => pat.isEmpty
  | c :: cs => pat.isPrefixOf (c :: cs) || listContainsSub pat cs

/-- `bad in answer_text` for strings. -/
def strContains (s pat : String) : Bool := listContainsSub pat.toList s.toList

/-- The leakage blacklist of the Validate stage (line 197 of
`src/mian.py`). -/
def leakWords : List String := ["according", "based on", "information", "reference"]

/-- The retry trigger of the Validate stage: cleaned answer shorter than
2 characters, or containing a blacklist substring (case-sensitive). -/
def needsRetry (a : String) : Bool :=
  decide (a.length < 2) || leakWords.any (fun bad => strContains a bad)

/-- Generate/Validate/Retry phase of `main` (lines 183–217 of
`src/mian.py`), as a function of the generator oracle.  The first
consumed response is the answer generation, the second (consumed only
when validation fails) is the retry; an exception in either call is
caught by the surrounding `try` and turns the output into the literal
error marker. -/
def answerPhase : List GenResp → String × List GenResp
  | [] => ("错误", [])
  | Except.error _ :: st1 => ("错误", st1)
  | Except.ok [] :: st1 => ("生成失败", st1)
  | Except.ok (a :: _) :: st1 =>
    if needsRetry (clean_answer_aggressive (pyStrip a.toList).asString) then
      match st1 with
      | [] => ("错误", [])
      | Except.error _ :: st2 => ("错误", st2)
      | Except.ok [] :: st2 =>
        (clean_answer_aggressive (pyStrip a.toList).asString, st2)
      | Except.ok (b :: _) :: st2 => (clean_answer_aggressive b, st2)
    else (clean_answer_aggressive (pyStrip a.toList).asString, st1)

/-- Join a keyword list with single spaces (`" ".join(entities)`). -/
def joinSp : List String → String
  | [] => ""
  | [s] => s
  | s :: rest => s ++ " " ++ joinSp rest

/-- Result of the Decompose stage of the pipeline. -/
structure DecompOut where
  core_question : String
  entities : List String
  search_query : String
deriving DecidableEq

/-- Step 1 of `main` (line 89 of `src/mian.py`): core-question
extraction; the generate call is issued only when the text has at least
20 characters. -/
def coreQStep (text : String) (st : List GenResp) : String × List GenResp :=
  if text.length < 20 then (text, st)
  else
    let (r, st') := genCall st
    (extract_question_with_llm text r, st')

/-- Step 2 of `main` (line 95 of `src/mian.py`): keyword extraction; the
generate call is issued only when the text has at least 10 characters. -/
def entitiesStep (text : String) (st : List GenResp) : List String × List GenResp :=
  if text.length < 10 then ([text], st)
  else
    let (r, st') := genCall st
    (extract_core_entities text r, st')

/-- Sub-query decomposition (`extract_core_querys`) as a pipeline step;
`src/mian.py` never invokes it. -/
def querysStep (text : String) (st : List GenResp) : List String × List GenResp :=
  if text.length < 10 then ([text], st)
  else
    let (r, st') := genCall st
    (extract_core_querys text r, st')

/-- The Decompose stage as `src/mian.py` lines 88–99 implement it: core
question, then keywords, then
`search_query = " ".join(entities) if entities else core_question`. -/
def decomposeStage (q : String) (st : List GenResp) : DecompOut × List GenResp :=
  let (core, st1) := coreQStep q st
  let (ents, st2) := entitiesStep q st1
  (⟨core, ents, if ents.isEmpty then core else joinSp ents⟩, st2)

/-- Modelled from the spec (§4.4 Decompose): the same stage as the spec
describes it, running all three §4.1 routines — core-question
extraction, keyword extraction, and sub-query decomposition — before
building the search query.  Stated only to be compared against
`decomposeStage`, the embedding of the code. -/
def decomposeStageSpec (q : String) (st : List GenResp) : DecompOut × List GenResp :=
  let (core, st1) := coreQStep q st
  let (ents, st2) := entitiesStep q st1
  let (_subQueries, st3) := querysStep q st2
  (⟨core, ents, if ents.isEmpty then core else joinSp ents⟩, st3)

/-- One entry of the input JSON array, abstracted to what the loop header
of `main` inspects: whether it is a dict, whether it has the key
`input_field`, and its optional `id` value. -/
structure InEntry where
  isDict : Bool
  hasInput : Bool
  id : Option String
deriving DecidableEq

/-- `q.get("id", f"q_{i}")`. -/
def entryId (i : Nat) (e : InEntry) : String :=
  e.id.getD ("q_" ++ toString i)

/-- Hex digit for JSON `\u00XX` escapes. -/
def hexDigit (n : Nat) : Char :=
  if n < 10 then Char.ofNat (48 + n) else Char.ofNat (87 + n)

/-- String escaping of `json.dumps(..., ensure_ascii=False)`. -/
def jsonEscape (s : String) : String :=
  (s.toList.map (fun c =>
    if c == '"' then ['\\', '"']
    else if c == '\\' then ['\\', '\\']
    else if c == '\n' then ['\\', 'n']
    else if c == '\t' then ['\\', 't']
    else if c == '\r' then ['\\', 'r']
    else if c == '\x08' then ['\\', 'b']
    else if c == '\x0c' then ['\\', 'f']
    else if c.toNat < 32 then
      ['\\', 'u', '0', '0', hexDigit (c.toNat / 16), hexDigit (c.toNat % 16)]
    else [c])).flatten.asString

/-- `json.dumps({"id": id, "output_field": out}, ensure_ascii=False,
indent=2)`: an indent-2 pretty-printed object whose keys keep insertion
order. -/
def dumpRecord (id out : String) : String :=
  "\x7b\n  \"id\": \"" ++ jsonEscape id ++ "\",\n  \"output_field\": \""
    ++ jsonEscape out ++ "\"\n\x7d"

/-- The records `{id, output_field}` produced by the loop of `main`
(lines 68–231 of `src/mian.py`): entries that are not dicts or lack
`input_field` are skipped, the enumeration index advances for every
entry.  `process i` abstracts the per-question processing outcome (the
final `output_field`), which by construction never raises. -/
def runRecords (process : Nat → String) : Nat → List InEntry → List (String × String)
  | _, [] => []
  | i, e :: rest =>
    if e.isDict && e.hasInput then
      (entryId i e, process i) :: runRecords process (i + 1) rest
    else runRecords process (i + 1) rest

/-- The output stream written by the loop of `main`: for each processed
question, `json.dumps(result_item, ensure_ascii=False, indent=2) + '\n'`
(line 230 of `src/mian.py`). -/
def runLoop (process : Nat → String) : Nat → List InEntry → String
  | _, [] => ""
  | i, e :: rest =>
    if e.isDict && e.hasInput then
      dumpRecord (entryId i e) (process i) ++ "\n" ++ runLoop process (i + 1) rest
    else runLoop process (i + 1) rest

/-! ## Decidable predicates used by the theorems -/

deriving instance DecidableEq for Except

/-- Whether a colon occurs within the first 15 characters (the stage-2
trigger of `clean_answer_aggressive`). -/
def earlyColon (l : List Char) : Bool :=
  match idxOfColon l with
  | some i => decide (i < 15)
  | none => false

/-- A string that stage-by-stage inspection shows `clean_answer_aggressive`
leaves unchanged: non-empty, no `bad_starts` boilerplate phrase at the
front, no colon within the first 15 characters, no leading or trailing
quote, and a bare token — no first-clause delimiter (`,`, `.`, newline,
`;`) anywhere, no trailing strippable punctuation, surrounded by no
whitespace — of length at most 30. -/
def alreadyClean (t : String) : Bool :=
  let l := t.toList
  !l.isEmpty &&
  badStarts.all (fun b => !(b.toList.isPrefixOf l)) &&
  !earlyColon l &&
  (l.head?.all (fun c => !(quoteChars.contains c))) &&
  (l.getLast?.all (fun c => !(quoteChars.contains c))) &&
  l.all (fun c => !(clauseDelims.contains c)) &&
  (l.getLast?.all (fun c => !(punctChars.contains c))) &&
  (pyStrip l == l) &&
  decide (l.length ≤ 30)

/-- All segments of a split have length at most 1. -/
def allShortCL (ls : List (List Char)) : Bool :=
  ls.all (fun s => decide (s.length ≤ 1))

/-- No two adjacent characters are both outside `p`; equivalently (see
`allShort_iff_noRun`) every `re.split(r'[...]+')` token has length at
most 1. -/
def NoRun (p : Char → Bool) (l : List Char) : Prop :=
  l.Chain' (fun a b => p a = true ∨ p b = true)

/-! ## Helper lemmas -/

theorem asString_toList_self (s : String) : s.toList.asString = s := rfl

theorem toList_asString_self (l : List Char) : l.asString.toList = l := rfl

theorem length_asString (l : List Char) : l.asString.length = l.length := rfl

theorem asString_ne_empty {l : List Char} (h : l ≠ []) : l.asString ≠ "" := by
  intro hc
  exact h (by simpa using congrArg String.toList hc)

theorem toList_ne_nil {s : String} (h : s ≠ "") : s.toList ≠ [] := by
  intro hc
  apply h
  rw [← asString_toList_self s, hc]
  rfl

theorem length_rdropWhileP_le (p : Char → Bool) (l : List Char) :
    (rdropWhileP p l).length ≤ l.length := by
  unfold rdropWhileP
  rw [List.length_reverse]
  have h := (List.dropWhile_suffix (l := l.reverse) p).sublist.length_le
  simpa using h

theorem length_pyStrip_le (l : List Char) : (pyStrip l).length ≤ l.length := by
  unfold pyStrip
  exact le_trans (length_rdropWhileP_le _ _)
    (List.dropWhile_suffix isPySpace).sublist.length_le

theorem length_capStage_le (l : List Char) : (capStage l).length ≤ 30 := by
  unfold capStage
  split
  · simp [List.length_take]
  · omega

theorem length_cleanStages_le (l : List Char) : (cleanStages l).length ≤ 30 :=
  le_trans (length_pyStrip_le _) (length_capStage_le _)

/-- **C1.** For every string `s`, `clean_answer_aggressive s` has length at
most 30 and is non-empty whenever `s` is non-empty; moreover
`clean_answer_aggressive "" = ""` and, the embedding being a total
function, the transform never raises. -/
theorem C1_clean_answer_total_bounds :
    (∀ s : String, (clean_answer_aggressive s).length ≤ 30 ∧
      (s ≠ "" → clean_answer_aggressive s ≠ "")) ∧
    clean_answer_aggressive "" = "" := by
  constructor
  · intro s
    constructor
    · unfold clean_answer_aggressive
      split
      · simp
      · split
        · rw [length_asString]
          have h := List.length_take_le 20 s.toList
          omega
        · rw [length_asString]
          exact length_cleanStages_le _
    · intro hs
      have hl : s.toList ≠ [] := toList_ne_nil hs
      unfold clean_answer_aggressive
      split
      · rename_i h
        exact absurd (List.isEmpty_iff.mp h) hl
      · split
        · apply asString_ne_empty
          match hl' : s.toList with
          | [] => exact absurd hl' hl
          | c :: cs => simp
        · rename_i h
          exact asString_ne_empty (by simpa using h)
  · rfl

/-- Witness for C1 at a concrete non-empty input. -/
theorem C1_witness :
    clean_answer_aggressive "Answer: Ringo Sheena." ≠ "" :=
  (C1_clean_answer_total_bounds.1 "Answer: Ringo Sheena.").2 (by decide)

/-- **C6.** `extract_relevant_sentences` on the single Paris document with
the capital-of-France question and a cap of 2 returns the document
unchanged (no Han-script terminator or newline splits it, and its
Latin-token overlap with the question is positive), and on an empty
document list it returns `""` for every question and cap. -/
theorem C6_relevant_sentences_concrete :
    extract_relevant_sentences
      ["Paris is the capital of France. It is known for the Eiffel Tower."]
      "What is the capital of France?" 2 =
      "Paris is the capital of France. It is known for the Eiffel Tower." ∧
    ∀ (q : String) (n : Nat), extract_relevant_sentences [] q n = "" :=
  ⟨by decide, fun _ _ => rfl⟩

/-- **C9.** For every text of length at least 10, when the generator
returns a result list headed by `s`, `extract_core_querys` strips `s`,
normalizes full-width commas to standard commas, splits on commas,
strips each segment and discards empty ones.  (The concrete instance
`s = "A，B，C" ↦ ["A", "B", "C"]` is the witness below.) -/
theorem C9_subquery_split (text s : String) (rest : List String)
    (h : 10 ≤ text.length) :
    extract_core_querys text (Except.ok (s :: rest)) =
      (((splitEvery (fun c => c == ',') (replFW (pyStrip s.toList))).map
        pyStrip).filter (fun x => !x.isEmpty)).map List.asString := by
  unfold extract_core_querys
  rw [if_neg (by omega)]

/-- Witness for C9: the concrete full-width-comma instance of the claim. -/
theorem C9_witness :
    extract_core_querys "0123456789" (Except.ok ["A，B，C"]) = ["A", "B", "C"] :=
  (C9_subquery_split "0123456789" "A，B，C" [] (by decide)).trans (by decide)

/-- **C2, counterexample.** The Decompose stage of `src/mian.py` does
not run all three §4.1 routines: on a concrete 26-character question
with a three-response oracle, the code's stage (`decomposeStage`)
consumes only two generator responses, while the stage the claim
describes (`decomposeStageSpec`, which additionally runs sub-query
decomposition) consumes three, so the two differ. -/
theorem C2_counterexample :
    (decomposeStage "abcdefghijklmnopqrstuvwxyz"
      [Except.ok ["Core Q"], Except.ok ["kw1 kw2"], Except.ok ["s1, s2"]]).2.length = 1 ∧
    (decomposeStageSpec "abcdefghijklmnopqrstuvwxyz"
      [Except.ok ["Core Q"], Except.ok ["kw1 kw2"], Except.ok ["s1, s2"]]).2.length = 0 ∧
    decomposeStage "abcdefghijklmnopqrstuvwxyz"
      [Except.ok ["Core Q"], Except.ok ["kw1 kw2"], Except.ok ["s1, s2"]] ≠
    decomposeStageSpec "abcdefghijklmnopqrstuvwxyz"
      [Except.ok ["Core Q"], Except.ok ["kw1 kw2"], Except.ok ["s1, s2"]] := by
  refine ⟨by decide, by decide, fun h => absurd (congrArg (fun x => x.2.length) h) (by decide)⟩

/-- **C2, amended.** For every question of length at least 20, the
Decompose stage runs exactly two of §4.1's routines — core-question
extraction and keyword extraction, consuming exactly their two
generator responses and never invoking sub-query decomposition —
before building the search query by joining the extracted keywords
with spaces, falling back to the core question when keyword extraction
yields an empty sequence. -/
theorem C2_decompose_two_routines (q : String) (r1 r2 : GenResp)
    (rest : List GenResp) (h : 20 ≤ q.length) :
    decomposeStage q (r1 :: r2 :: rest) =
      (⟨extract_question_with_llm q r1, extract_core_entities q r2,
        if (extract_core_entities q r2).isEmpty then extract_question_with_llm q r1
        else joinSp (extract_core_entities q r2)⟩, rest) := by
  have h20 : ¬(q.length < 20) := by omega
  have h10 : ¬(q.length < 10) := by omega
  unfold decomposeStage coreQStep entitiesStep genCall
  simp only [if_neg h20, if_neg h10]

/-- Witness for the amended C2 at a concrete question and oracle. -/
theorem C2_witness :
    decomposeStage "abcdefghijklmnopqrstuvwxyz"
      [Except.ok ["Core Q"], Except.ok ["kw1 kw2"]] =
      (⟨"Core Q", ["kw1", "kw2"], "kw1 kw2"⟩, []) :=
  (C2_decompose_two_routines "abcdefghijklmnopqrstuvwxyz"
    (Except.ok ["Core Q"]) (Except.ok ["kw1 kw2"]) [] (by decide)).trans (by decide)

/-- **C7, counterexample.** On a single valid input entry, the loop of
`main` writes exactly one record, but its serialization
(`json.dumps(..., indent=2)`) spans several lines: the written stream
contains 4 newlines for the single record, and the record text itself
contains newlines — the output stream is not line-delimited JSON with
one record per line. -/
theorem C7_counterexample :
    runRecords (fun _ => "y") 0 [⟨true, true, some "x"⟩] = [("x", "y")] ∧
    (runLoop (fun _ => "y") 0 [⟨true, true, some "x"⟩]).toList.count '\n' = 4 ∧
    (dumpRecord "x" "y").toList.contains '\n' = true := by
  refine ⟨by decide, by decide, by decide⟩

/-- **C7, amended.** The run writes exactly one output record
`(id, output_field)` per input entry that is an object containing the
key `input_field`, in input order — entries that are not objects or
lack `input_field` produce no record — and the output stream is the
concatenation, in that order, of each record's indent-2 JSON
serialization followed by a newline (each record spanning several
lines rather than one). -/
theorem C7_one_record_per_valid_entry (process : Nat → String) :
    ∀ (i : Nat) (entries : List InEntry),
      runRecords process i entries =
        ((entries.enumFrom i).filter
          (fun pe => pe.2.isDict && pe.2.hasInput)).map
          (fun pe => (entryId pe.1 pe.2, process pe.1)) ∧
      runLoop process i entries =
        ((runRecords process i entries).map
          (fun r => dumpRecord r.1 r.2 ++ "\n")).foldr (· ++ ·) "" := by
  intro i entries
  induction entries generalizing i with
  | nil => exact ⟨rfl, rfl⟩
  | cons e rest ih =>
    by_cases hc : (e.isDict && e.hasInput) = true
    · constructor
      · simp [runRecords, hc, List.enumFrom_cons, List.filter_cons, (ih (i + 1)).1]
      · simp [runRecords, runLoop, hc, (ih (i + 1)).2, String.append_assoc]
    · constructor
      · simp [runRecords, hc, List.enumFrom_cons, List.filter_cons, (ih (i + 1)).1]
      · simp [runRecords, runLoop, hc, (ih (i + 1)).2]

/-- **C3.** In the Validate stage, for every raw generated answer: no
retry is consumed when the cleaned answer passes validation (the oracle
state is untouched beyond the first response); when validation fails
(`needsRetry`) the retry response is consumed and its cleaned value is
adopted as final for every retry result — in particular also when that
cleaned value would itself fail validation; and the phase never
consumes more than two responses, so at most one retry ever happens. -/
theorem C3_validate_retry (a : String) (more : List String) (r2 : GenResp)
    (rest : List GenResp) :
    (needsRetry (clean_answer_aggressive (pyStrip a.toList).asString) = false →
      answerPhase (Except.ok (a :: more) :: r2 :: rest) =
        (clean_answer_aggressive (pyStrip a.toList).asString, r2 :: rest)) ∧
    (∀ b bs, needsRetry (clean_answer_aggressive (pyStrip a.toList).asString) = true →
      r2 = Except.ok (b :: bs) →
      answerPhase (Except.ok (a :: more) :: r2 :: rest) =
        (clean_answer_aggressive b, rest)) ∧
    (∀ st : List GenResp, st.length ≤ (answerPhase st).2.length + 2) := by
  refine ⟨fun h => ?_, fun b bs h hr => ?_, fun st => ?_⟩
  · show (if needsRetry (clean_answer_aggressive (pyStrip a.toList).asString) then _ else
      (clean_answer_aggressive (pyStrip a.toList).asString, r2 :: rest)) = _
    rw [if_neg (by simp only [h]; decide)]
  · subst hr
    show (if needsRetry (clean_answer_aggressive (pyStrip a.toList).asString) then
      (clean_answer_aggressive b, rest) else _) = _
    rw [if_pos h]
  · match st with
    | [] => decide
    | Except.error u :: st' =>
      have he : answerPhase (Except.error u :: st') = ("错误", st') := rfl
      rw [he]
      simp only [List.length_cons]
      omega
    | Except.ok [] :: st' =>
      have he : answerPhase (Except.ok [] :: st') = ("生成失败", st') := rfl
      rw [he]
      simp only [List.length_cons]
      omega
    | Except.ok (a :: as) :: st' =>
      show (Except.ok (a :: as) :: st').length ≤
        ((if needsRetry (clean_answer_aggressive (pyStrip a.toList).asString) then
            match st' with
            | [] => ("错误", [])
            | Except.error _ :: st2 => ("错误", st2)
            | Except.ok [] :: st2 =>
              (clean_answer_aggressive (pyStrip a.toList).asString, st2)
            | Except.ok (b :: _) :: st2 => (clean_answer_aggressive b, st2)
          else (clean_answer_aggressive (pyStrip a.toList).asString, st')) :
          String × List GenResp).2.length + 2
      split
      · cases st' with
        | nil => simp
        | cons r st'' =>
          cases r with
          | error u => simp only [List.length_cons]; omega
          | ok l =>
            cases l with
            | nil => simp only [List.length_cons]; omega
            | cons b bs => simp only [List.length_cons]; omega
      · simp only [List.length_cons]
        omega

/-- Witness for C3: a too-short first answer triggers the retry, and the
retry's cleaned result is adopted although it contains the blacklist
substring `according` and so fails the same validation. -/
theorem C3_witness :
    needsRetry (clean_answer_aggressive (pyStrip ("x" : String).toList).asString) = true ∧
    needsRetry (clean_answer_aggressive "according to stuff") = true ∧
    answerPhase [Except.ok ["x"], Except.ok ["according to stuff"]] =
      ("according to stuff", []) :=
  ⟨by decide, by decide,
    ((C3_validate_retry "x" [] (Except.ok ["according to stuff"]) []).2.1
      "according to stuff" [] (by decide) rfl).trans (by decide)⟩

/-- **C4.** For every text of length at least 10 and a raising generator,
`extract_core_entities` returns exactly the deterministic fallback —
up to the first 6 alphabetic tokens of length 2–15 followed by up to
the first 3 numeric tokens of the text, in order of appearance, or the
singleton holding the text's first 30 characters when no such token
exists — and that result is a non-empty sequence of at most
10 elements. -/
theorem C4_keyword_fallback (text : String) (h : 10 ≤ text.length) :
    extract_core_entities text (Except.error ()) =
      (if ((letterTokens2to15 text.toList).take 6 ++
           (digitTokens text.toList).take 3).isEmpty
       then [(text.toList.take 30).asString]
       else ((letterTokens2to15 text.toList).take 6 ++
             (digitTokens text.toList).take 3).map List.asString) ∧
    extract_core_entities text (Except.error ()) ≠ [] ∧
    (extract_core_entities text (Except.error ())).length ≤ 10 := by
  have hlen : ((letterTokens2to15 text.toList).take 6 ++
      (digitTokens text.toList).take 3).length ≤ 9 := by
    rw [List.length_append]
    have h6 := List.length_take_le 6 (letterTokens2to15 text.toList)
    have h3 := List.length_take_le 3 (digitTokens text.toList)
    omega
  have he : extract_core_entities text (Except.error ()) =
      fallbackKeywords text := by
    unfold extract_core_entities
    rw [if_neg (by omega)]
  rw [he]
  simp only [fallbackKeywords]
  rw [List.take_of_length_le (le_trans hlen (by norm_num))]
  refine ⟨?_, ?_, ?_⟩
  · split
    · rfl
    · rfl
  · split
    · simp
    · rename_i hK
      simp only [ne_eq, List.map_eq_nil_iff]
      exact fun hnil => hK (by rw [hnil]; rfl)
  · split
    · simp
    · rw [List.length_map]
      omega

/-- Witness for C4 on a concrete text with letters and numbers. -/
theorem C4_witness :
    extract_core_entities "John went to Paris in 1990" (Except.error ()) ≠ [] :=
  (C4_keyword_fallback "John went to Paris in 1990" (by decide)).2.1

/-- **C5.** `extract_question_with_llm` never raises (it is a total
function); for every text of length at least 20, whenever the
generator raises or the cleaned generation result is shorter than 3
characters, it returns `coreFallback text` — the last non-empty
stripped segment of the text split on `.`, `?`, `!`, or the text
itself when no non-empty segment exists. -/
theorem C5_core_question_fallback (text : String) (resp : GenResp)
    (h : 20 ≤ text.length)
    (hfail : resp = Except.error () ∨
      ∃ r rs, resp = Except.ok (r :: rs) ∧ (coreClean r).length < 3) :
    extract_question_with_llm text resp = coreFallback text := by
  unfold extract_question_with_llm
  rw [if_neg (by omega)]
  rcases hfail with h1 | ⟨r, rs, hr, hlen⟩
  · rw [h1]
  · rw [hr]
    simp only [if_pos hlen]

/-- Witness for C5: a raising generator on a 38-character text. -/
theorem C5_witness :
    extract_question_with_llm "Who wrote this book? It matters today!"
      (Except.error ()) = "It matters today" :=
  (C5_core_question_fallback "Who wrote this book? It matters today!"
    (Except.error ()) (by decide) (Or.inl rfl)).trans (by decide)

/-! ## C8: conditional idempotence of the answer normalizer -/

theorem dropWhile_eq_self_of_head {p : Char → Bool} {l : List Char}
    (h : l.head?.all (fun c => !p c) = true) : l.dropWhile p = l := by
  cases l with
  | nil => rfl
  | cons c cs =>
    simp only [List.head?, Option.all_some, Bool.not_eq_true'] at h
    simp [List.dropWhile_cons, h]

theorem rdropWhileP_eq_self_of_getLast {p : Char → Bool} {l : List Char}
    (h : l.getLast?.all (fun c => !p c) = true) : rdropWhileP p l = l := by
  unfold rdropWhileP
  rw [dropWhile_eq_self_of_head (by rwa [List.head?_reverse]), List.reverse_reverse]

theorem contains_eq_true_iff_mem {l : List Char} {d : Char} :
    l.contains d = true ↔ d ∈ l := List.elem_iff

theorem stripBoiler_eq_self {bs : List String} {l : List Char}
    (h : ∀ b ∈ bs, (b.toList.isPrefixOf l) = false) : stripBoiler bs l = l := by
  induction bs with
  | nil => rfl
  | cons b rest ih =>
    rw [stripBoiler, if_neg (by rw [h b (List.mem_cons_self b rest)]; decide)]
    exact ih fun x hx => h x (by simp [hx])

theorem colonStage_eq_self {l : List Char} (h : earlyColon l = false) :
    colonStage l = l := by
  unfold colonStage
  unfold earlyColon at h
  cases hm : idxOfColon l with
  | none => rfl
  | some i =>
    rw [hm] at h
    replace h : decide (i < 15) = false := h
    show (if i < 15 then pyStrip (l.drop (i + 1)) else l) = l
    rw [if_neg (by simpa using h)]

theorem stripCharSet_eq_self {cs : List Char} {l : List Char}
    (h1 : l.head?.all (fun c => !(cs.contains c)) = true)
    (h2 : l.getLast?.all (fun c => !(cs.contains c)) = true) :
    stripCharSet cs l = l := by
  unfold stripCharSet
  rw [dropWhile_eq_self_of_head h1]
  exact rdropWhileP_eq_self_of_getLast h2

theorem contains_eq_false_of_all {l ban : List Char}
    (h : l.all (fun c => !(ban.contains c)) = true) {d : Char} (hd : d ∈ ban) :
    l.contains d = false := by
  by_contra hc
  rw [Bool.not_eq_false] at hc
  have hmem : d ∈ l := contains_eq_true_iff_mem.mp hc
  have h2 := List.all_eq_true.mp h d hmem
  rw [Bool.not_eq_true'] at h2
  exact absurd (contains_eq_true_iff_mem.mpr hd) (by rw [h2]; decide)

theorem firstClauseGo_eq_self {ds l : List Char}
    (h : ∀ d ∈ ds, l.contains d = false) : firstClauseGo ds l = l := by
  induction ds with
  | nil => rfl
  | cons d rest ih =>
    rw [firstClauseGo, if_neg (by rw [h d (List.mem_cons_self d rest)]; decide)]
    exact ih fun x hx => h x (by simp [hx])

theorem capStage_eq_self {l : List Char} (h : l.length ≤ 30) : capStage l = l := by
  unfold capStage
  rw [if_neg (by omega)]

/-- A string satisfying `alreadyClean` passes through every stage of
`clean_answer_aggressive` unchanged. -/
theorem clean_fixed {u : String} (h : alreadyClean u = true) :
    clean_answer_aggressive u = u := by
  simp only [alreadyClean, Bool.and_eq_true] at h
  obtain ⟨⟨⟨⟨⟨⟨⟨⟨hne, hbad⟩, hcolon⟩, hqh⟩, hql⟩, hdelim⟩, hpunct⟩, hstrip⟩, hlen⟩ := h
  have hstages : cleanStages u.toList = u.toList := by
    unfold cleanStages
    rw [stripBoiler_eq_self (fun b hb => by
      have := List.all_eq_true.mp hbad b hb
      rwa [Bool.not_eq_true'] at this)]
    rw [colonStage_eq_self (by rwa [Bool.not_eq_true'] at hcolon)]
    rw [stripCharSet_eq_self hqh hql]
    rw [firstClauseGo_eq_self (fun d hd => contains_eq_false_of_all hdelim hd)]
    rw [rstripCharSet, rdropWhileP_eq_self_of_getLast hpunct]
    rw [capStage_eq_self (by simpa using hlen)]
    exact eq_of_beq hstrip
  unfold clean_answer_aggressive
  rw [if_neg (by simp_all), hstages,
    if_neg (by simpa using toList_ne_nil (s := u) (by
      intro hu
      rw [hu] at hne
      simp at hne))]
  exact asString_toList_self u

/-- **C8.** Conditional idempotence: whenever the first pass of
`clean_answer_aggressive` produces an already-clean value — a bare
token with no `bad_starts` boilerplate phrase at the front, no colon
within its first 15 characters, no leading or trailing quote, and
length at most 30 (`alreadyClean`) — a second application returns it
unchanged. -/
theorem C8_conditional_idempotence (s : String)
    (h : alreadyClean (clean_answer_aggressive s) = true) :
    clean_answer_aggressive (clean_answer_aggressive s) =
      clean_answer_aggressive s :=
  clean_fixed h

/-- Witness for C8 at a concrete input whose first pass is already
clean. -/
theorem C8_witness :
    alreadyClean (clean_answer_aggressive "hello") = true ∧
    clean_answer_aggressive (clean_answer_aggressive "hello") =
      clean_answer_aggressive "hello" :=
  ⟨by decide, C8_conditional_idempotence "hello" (by decide)⟩

/-! ## C10: short-token outputs yield an empty keyword list -/

theorem consHead_ne_nil (c : Char) (X : List (List Char)) : consHead c X ≠ [] := by
  cases X <;> simp [consHead]

theorem splitRunsF_ne_nil (p : Char → Bool) (b : Bool) (l : List Char) :
    splitRunsF p b l ≠ [] := by
  induction l generalizing b with
  | nil => simp [splitRunsF]
  | cons c cs ih =>
    cases b with
    | false =>
      rw [splitRunsF]
      split
      · simp
      · exact consHead_ne_nil c _
    | true =>
      rw [splitRunsF]
      split
      · exact ih true
      · exact consHead_ne_nil c _

theorem allShort_flag (p : Char → Bool) (l : List Char) :
    allShortCL (splitRunsF p true l) = allShortCL (splitRunsF p false l) := by
  cases l with
  | nil => rfl
  | cons c cs =>
    cases hc : p c with
    | true => simp [splitRunsF, hc, allShortCL]
    | false => simp [splitRunsF, hc]

theorem noRun_cons_of_p {p : Char → Bool} {c : Char} {l : List Char}
    (hc : p c = true) : NoRun p (c :: l) ↔ NoRun p l := by
  cases l with
  | nil => simp [NoRun]
  | cons c2 rest => simp [NoRun, List.chain'_cons, hc]

/-- Every token of an `re.split(r'[...]+')` split has length at most 1
exactly when no two adjacent characters both lie outside the delimiter
class. -/
theorem allShort_iff_noRun (p : Char → Bool) : ∀ l : List Char,
    (allShortCL (splitRunsF p false l) = true ↔ NoRun p l)
  | [] => by simp [splitRunsF, allShortCL, NoRun]
  | [c] => by
    cases hc : p c with
    | true => simp [splitRunsF, hc, allShortCL, consHead, NoRun]
    | false => simp [splitRunsF, hc, allShortCL, consHead, NoRun]
  | c :: c2 :: rest => by
    have ih1 := allShort_iff_noRun p (c2 :: rest)
    have ih2 := allShort_iff_noRun p rest
    cases h1 : p c with
    | true =>
      have e1 : splitRunsF p false (c :: c2 :: rest) =
          [] :: splitRunsF p true (c2 :: rest) := by
        simp [splitRunsF, h1]
      have e2 : allShortCL ([] :: splitRunsF p true (c2 :: rest)) =
          allShortCL (splitRunsF p true (c2 :: rest)) := by
        simp [allShortCL]
      rw [e1, e2, allShort_flag p (c2 :: rest), ih1]
      exact (noRun_cons_of_p h1).symm
    | false =>
      cases h2 : p c2 with
      | true =>
        have e1 : splitRunsF p false (c :: c2 :: rest) =
            [c] :: splitRunsF p true rest := by
          simp [splitRunsF, h1, h2, consHead]
        have e2 : allShortCL ([c] :: splitRunsF p true rest) =
            allShortCL (splitRunsF p true rest) := by
          simp [allShortCL]
        rw [e1, e2, allShort_flag p rest, ih2]
        constructor
        · intro hr
          exact List.chain'_cons.mpr ⟨Or.inr h2, (noRun_cons_of_p h2).mpr hr⟩
        · intro hr
          exact (noRun_cons_of_p h2).mp (List.chain'_cons.mp hr).2
      | false =>
        obtain ⟨x, xs, hx⟩ : ∃ x xs, splitRunsF p false rest = x :: xs := by
          cases hxx : splitRunsF p false rest with
          | nil => exact absurd hxx (splitRunsF_ne_nil p false rest)
          | cons x xs => exact ⟨x, xs, rfl⟩
        have e1 : splitRunsF p false (c :: c2 :: rest) = (c :: c2 :: x) :: xs := by
          simp [splitRunsF, h1, h2, consHead, hx]
        rw [e1]
        constructor
        · intro hs
          exfalso
          have := List.all_eq_true.mp hs (c :: c2 :: x) (by simp)
          simp at this
        · intro hr
          exfalso
          rcases (List.chain'_cons.mp hr).1 with ha | hb
          · rw [h1] at ha; exact absurd ha (by decide)
          · rw [h2] at hb; exact absurd hb (by decide)

theorem noRun_dropWhile (q : Char → Bool) {p : Char → Bool} {l : List Char}
    (h : NoRun p l) : NoRun p (l.dropWhile q) := by
  obtain ⟨t, ht⟩ := List.dropWhile_suffix (l := l) q
  rw [← ht] at h
  exact (List.chain'_append.mp h).2.1

theorem noRun_reverse {p : Char → Bool} {l : List Char} (h : NoRun p l) :
    NoRun p l.reverse := by
  unfold NoRun at h ⊢
  rw [List.chain'_reverse]
  exact h.imp fun a b hab => Or.symm hab

theorem noRun_pyStrip {p : Char → Bool} {l : List Char} (h : NoRun p l) :
    NoRun p (pyStrip l) := by
  unfold pyStrip rdropWhileP
  exact noRun_reverse (noRun_dropWhile _ (noRun_reverse (noRun_dropWhile _ h)))

/-- A phrase starting with two non-delimiter characters cannot be a
prefix of a string in which no two adjacent characters are
non-delimiters. -/
theorem notPrefixTwo_of_noRun {t : List Char} (hnr : NoRun isCommaWS t)
    {a b : Char} {r : List Char} (ha : isCommaWS a = false)
    (hb : isCommaWS b = false) : ¬((a :: b :: r) <+: t) := by
  intro hp
  obtain ⟨u, hu⟩ := hp
  rw [← hu] at hnr
  simp only [List.cons_append] at hnr
  rcases (List.chain'_cons.mp hnr).1 with h1 | h2
  · rw [ha] at h1; exact absurd h1 (by decide)
  · rw [hb] at h2; exact absurd h2 (by decide)

theorem entityLabels_no_fire {t : List Char} (h : NoRun isCommaWS t) :
    stripLabelsSeq entityLabels t = t := by
  have h1 : ¬(['O', 'u', 't', 'p', 'u', 't', ':'] <+: t) :=
    notPrefixTwo_of_noRun h (by decide) (by decide)
  have h2 : ¬(['K', 'e', 'y', 'w', 'o', 'r', 'd', 's', ':'] <+: t) :=
    notPrefixTwo_of_noRun h (by decide) (by decide)
  have h3 : ¬(['E', 'n', 't', 'i', 't', 'i', 'e', 's', ':'] <+: t) :=
    notPrefixTwo_of_noRun h (by decide) (by decide)
  simp [stripLabelsSeq, entityLabels, h1, h2, h3]

/-- Core of C10: on the LLM-success path, an output all of whose
comma/whitespace-separated tokens have length at most 1 makes
`extract_core_entities` return the empty list. -/
theorem entities_empty_of_short_tokens {s : String} (more : List String)
    (h : allShortCL (splitRuns isCommaWS s.toList) = true)
    {t : String} (ht : 10 ≤ t.length) :
    extract_core_entities t (Except.ok (s :: more)) = [] := by
  have hnr : NoRun isCommaWS s.toList := (allShort_iff_noRun isCommaWS s.toList).mp h
  have hnr2 : NoRun isCommaWS (pyStrip s.toList) := noRun_pyStrip hnr
  have hshort2 : allShortCL (splitRuns isCommaWS (pyStrip s.toList)) = true :=
    (allShort_iff_noRun isCommaWS (pyStrip s.toList)).mpr hnr2
  unfold extract_core_entities
  rw [if_neg (by omega)]
  dsimp only
  rw [entityLabels_no_fire hnr2]
  have hfil : (splitRuns isCommaWS (pyStrip s.toList)).filter
      (fun e => !(pyStrip e).isEmpty && decide (1 < e.length)) = [] := by
    rw [List.filter_eq_nil_iff]
    intro e he
    have hl := List.all_eq_true.mp hshort2 e he
    simp only [decide_eq_true_eq] at hl
    have : ¬(1 < e.length) := by omega
    simp [this]
  rw [hfil]
  rfl

/-- Shared unfolding of the Decompose stage on a two-response oracle. -/
theorem decomposeStage_cons (q : String) (r1 r2 : GenResp)
    (rest : List GenResp) (h : 20 ≤ q.length) :
    decomposeStage q (r1 :: r2 :: rest) =
      (⟨extract_question_with_llm q r1, extract_core_entities q r2,
        if (extract_core_entities q r2).isEmpty then extract_question_with_llm q r1
        else joinSp (extract_core_entities q r2)⟩, rest) := by
  have h20 : ¬(q.length < 20) := by omega
  have h10 : ¬(q.length < 10) := by omega
  unfold decomposeStage coreQStep entitiesStep genCall
  simp only [if_neg h20, if_neg h10]

/-- **C10.** On the LLM-success path, `extract_core_entities` returns the
empty sequence whenever every comma/whitespace-separated token of the
generator's output has length at most 1 (the deterministic fallback is
not invoked), and the pipeline's Decompose stage then uses the core
question, not the joined keywords, as the search query. -/
theorem C10_short_tokens (t : String) (ht : 10 ≤ t.length) (s : String)
    (more : List String)
    (h : allShortCL (splitRuns isCommaWS s.toList) = true)
    (q : String) (hq : 20 ≤ q.length) (r1 : GenResp) (rest : List GenResp) :
    extract_core_entities t (Except.ok (s :: more)) = [] ∧
    (decomposeStage q (r1 :: Except.ok (s :: more) :: rest)).1.search_query =
      (decomposeStage q (r1 :: Except.ok (s :: more) :: rest)).1.core_question := by
  refine ⟨entities_empty_of_short_tokens more h ht, ?_⟩
  rw [decomposeStage_cons q r1 (Except.ok (s :: more)) rest hq]
  simp [entities_empty_of_short_tokens more h (t := q) (by omega)]

/-- Witness for C10: the generator answers `"a b c"` (all tokens of
length 1), so no keywords survive and the search query falls back to
the core question. -/
theorem C10_witness :
    extract_core_entities "0123456789" (Except.ok ["a b c"]) = [] ∧
    (decomposeStage "abcdefghijklmnopqrstuvwxyz"
      [Except.ok ["Core Q"], Except.ok ["a b c"]]).1.search_query =
      (decomposeStage "abcdefghijklmnopqrstuvwxyz"
        [Except.ok ["Core Q"], Except.ok ["a b c"]]).1.core_question :=
  C10_short_tokens "0123456789" (by decide) "a b c" [] (by decide)
    "abcdefghijklmnopqrstuvwxyz" (by decide) (Except.ok ["Core Q"]) []

end MCASF
